import Mathlib

/-!
Shallow embedding of the work-time tracker core (src/src/logic.rs, with the
report pipeline of src/src/main.rs).  Instants (chrono DateTime of Utc) are
modelled as integers counting seconds since the Unix epoch; durations
(chrono Duration) are integers counting seconds.  The ambient clock
(Utc::now / Local::now) is passed explicitly: either as a single `now`
argument, or, where a call path samples the clock more than once, as a
function from sample index to instant.
-/

namespace TimeTracker

/-- Embeds struct Period of logic.rs (two UTC instants).  The source field
named end is called stop here because end is a Lean keyword. -/
structure Period where
  start : Int
  stop : Int
  deriving DecidableEq, Repr

/-- Embeds Period::overlap (logic.rs lines 17-26): the overlapping duration
between two periods, zero when the clipped bounds do not strictly increase. -/
def Period.overlap (a b : Period) : Int :=
  let overlap_start := max a.start b.start
  let overlap_stop := min a.stop b.stop
  if overlap_start < overlap_stop then overlap_stop - overlap_start else 0

/-- Embeds struct TimeSheet of logic.rs: completed periods plus the optional
start instant of the in-flight session. -/
structure TimeSheet where
  periods : List Period
  active_period_start : Option Int
  deriving DecidableEq, Repr

/-- Embeds enum ReportingPeriod of logic.rs. -/
inductive ReportingPeriod where
  | today
  | week
  | month
  deriving DecidableEq, Repr

/-- Embeds start_tracking (logic.rs lines 45-52).  The Rust function mutates
the sheet through a mutable reference and returns Result of unit and a static
message; here it returns the result paired with the sheet after the call. -/
def start_tracking (time_sheet : TimeSheet) (now : Int) :
    Except String Unit × TimeSheet :=
  if time_sheet.active_period_start.isSome then
    (Except.error "Already tracking time.", time_sheet)
  else
    (Except.ok (), ⟨time_sheet.periods, some now⟩)

/-- Embeds stop_tracking (logic.rs lines 56-65).  The Rust function takes the
active start out of the sheet, pushes the completed period, and returns the
duration as Some; here the returned Option is paired with the sheet after the
call. -/
def stop_tracking (time_sheet : TimeSheet) (now : Int) :
    Option Int × TimeSheet :=
  match time_sheet.active_period_start with
  | some start_time =>
      (some (now - start_time), ⟨time_sheet.periods ++ [⟨start_time, now⟩], none⟩)
  | none => (none, time_sheet)

/-- Embeds calculate_tracked_time_in_period (logic.rs lines 128-140).  The
Rust body calls Utc::now() inside the map_or closure when a session is
active; that freshly sampled instant is the explicit argument now here. -/
def calculate_tracked_time_in_period (time_sheet : TimeSheet)
    (reporting_period : Period) (now : Int) : Int :=
  let completed_duration :=
    (time_sheet.periods.map (fun p => p.overlap reporting_period)).sum
  let active_duration :=
    match time_sheet.active_period_start with
    | some start => Period.overlap ⟨start, now⟩ reporting_period
    | none => 0
  completed_duration + active_duration

/-- Embeds chrono LocalResult as returned by Local.from_local_datetime,
with candidate instants already taken to UTC seconds. -/
inductive LocalResult where
  | single (dt : Int)
  | ambiguous (dt1 dt2 : Int)
  | noLocal
  deriving DecidableEq, Repr

/-- Embeds std io ErrorKind, restricted to the kinds this program builds
errors from: Other (logic.rs, storage decode errors) and NotFound. -/
inductive ErrorKind where
  | other
  | notFound
  deriving DecidableEq, Repr

/-- Embeds std io Error: a kind plus the message it was built from. -/
structure IoError where
  kind : ErrorKind
  msg : String
  deriving DecidableEq, Repr

/-- The local timezone as the program observes it: from_local translates a
naive local timestamp (seconds) to a LocalResult of UTC instants (the
behaviour of Local.from_local_datetime followed by to_utc); localDay gives
the local civil day number (days since 1970-01-01) of a UTC instant, as
observed by Local::now().date_naive(); localYM gives the local year and
month of a UTC instant, as observed by year() and month() on that date. -/
structure Tz where
  fromLocal : Int → LocalResult
  localDay : Int → Int
  localYM : Int → Int × Int

/-- Embeds naive_to_utc (logic.rs lines 68-80): Single converts, Ambiguous
and None become io Errors of kind Other whose message carries the candidate
instants via their Display rendering (instants print as their second count
in this model). -/
def naive_to_utc (fromLocal : Int → LocalResult) (naive_dt : Int) :
    Except IoError Int :=
  match fromLocal naive_dt with
  | LocalResult.single dt => Except.ok dt
  | LocalResult.ambiguous dt1 dt2 =>
      Except.error ⟨ErrorKind.other,
        "Ambiguous local time during conversion: " ++ toString dt1 ++ " or "
          ++ toString dt2⟩
  | LocalResult.noLocal =>
      Except.error ⟨ErrorKind.other,
        "Invalid local time during conversion: " ++ toString naive_dt⟩

/-- Embeds the generic decode-error wrapping of storage.rs line 36 and
main.rs line 117: io Error::new(ErrorKind::Other, e) around a serde_json
message. -/
def decode_error_to_io (msg : String) : IoError :=
  ⟨ErrorKind.other, msg⟩

/-- Models chrono NaiveDate's proleptic-Gregorian day numbering: the number
of days from 1970-01-01 to the civil date (y, m, d), for 1 <= m <= 12
(the standard days-from-civil computation; Int division here is Euclidean,
which for a positive constant divisor is floor division, matching the
reference algorithm). -/
def daysFromCivil (y m d : Int) : Int :=
  let y' := if m ≤ 2 then y - 1 else y
  let era := y' / 400
  let yoe := y' - era * 400
  let mp := (m + 9) % 12
  let doy := (153 * mp + 2) / 5 + d - 1
  let doe := yoe * 365 + yoe / 4 - yoe / 100 + doy
  era * 146097 + doe - 719468

/-- Models chrono Weekday::num_days_from_monday on a day number: Monday is
0 and Sunday is 6; day 0 (1970-01-01) is a Thursday, hence offset 3. -/
def num_days_from_monday (day : Int) : Int :=
  (day + 3) % 7

example : daysFromCivil 1970 1 1 = 0 := by decide
example : daysFromCivil 2024 1 1 = 19723 := by decide
example : num_days_from_monday (daysFromCivil 2024 1 1) = 0 := by decide
example : num_days_from_monday (daysFromCivil 2023 12 31) = 6 := by decide

/-- Seconds in a day; a naive local datetime is day * 86400 + seconds, so
and_hms_opt(0, 0, 0) on day d is 86400 * d. -/
def secondsPerDay : Int := 86400

/-- Embeds get_today_period (logic.rs lines 83-92), with the instant that
Local::now() returns passed as now: local midnight of the current local
day to local midnight one day later, both converted through naive_to_utc. -/
def get_today_period (tz : Tz) (now : Int) : Except IoError Period := do
  let today_local_naive := tz.localDay now
  let start_naive := secondsPerDay * today_local_naive
  let end_naive := start_naive + secondsPerDay
  let s ← naive_to_utc tz.fromLocal start_naive
  let e ← naive_to_utc tz.fromLocal end_naive
  Except.ok ⟨s, e⟩

/-- Embeds get_week_period (logic.rs lines 95-106), with the instant that
Local::now() returns passed as now: subtract num_days_from_monday days from
the current local day, take local midnight there, and add one week. -/
def get_week_period (tz : Tz) (now : Int) : Except IoError Period := do
  let today_local_naive := tz.localDay now
  let days_from_monday := num_days_from_monday today_local_naive
  let start_of_week_naive := today_local_naive - days_from_monday
  let start_naive := secondsPerDay * start_of_week_naive
  let end_naive := start_naive + 7 * secondsPerDay
  let s ← naive_to_utc tz.fromLocal start_naive
  let e ← naive_to_utc tz.fromLocal end_naive
  Except.ok ⟨s, e⟩

/-- Embeds get_month_period (logic.rs lines 109-125), with the instant that
Local::now() returns passed as now: local midnight of the 1st of the
current local month to local midnight of the 1st of the next month, the
next month rolling December over to January of the next year. -/
def get_month_period (tz : Tz) (now : Int) : Except IoError Period := do
  let ym := tz.localYM now
  let start_naive := secondsPerDay * daysFromCivil ym.1 ym.2 1
  let next := if ym.2 = 12 then (ym.1 + 1, 1) else (ym.1, ym.2 + 1)
  let end_naive := secondsPerDay * daysFromCivil next.1 next.2 1
  let s ← naive_to_utc tz.fromLocal start_naive
  let e ← naive_to_utc tz.fromLocal end_naive
  Except.ok ⟨s, e⟩

/-- Embeds the window-selection match at the top of report_summary
(main.rs lines 222-226). -/
def resolve_window (tz : Tz) (now : Int) (rp : ReportingPeriod) :
    Except IoError Period :=
  match rp with
  | ReportingPeriod.today => get_today_period tz now
  | ReportingPeriod.week => get_week_period tz now
  | ReportingPeriod.month => get_month_period tz now

/-- Embeds the total computed by report_summary (main.rs lines 221-249):
the window resolver samples the clock (clock 0 stands for the Local::now()
call inside the resolver), and calculate_tracked_time_in_period then
samples it again (clock 1 stands for the Utc::now() call inside its
map_or closure). -/
def report_summary_total (tz : Tz) (clock : Nat → Int) (time_sheet : TimeSheet)
    (rp : ReportingPeriod) : Except IoError Int := do
  let reporting_period ← resolve_window tz (clock 0) rp
  Except.ok (calculate_tracked_time_in_period time_sheet reporting_period (clock 1))

/-- Written from the spec's words, for comparison with report_summary_total:
the report total with a single consistent now snapshot per report call, the
same snapshot serving window resolution and active-session clipping. -/
def single_snapshot_total (tz : Tz) (now : Int) (time_sheet : TimeSheet)
    (rp : ReportingPeriod) : Except IoError Int := do
  let reporting_period ← resolve_window tz now rp
  Except.ok (calculate_tracked_time_in_period time_sheet reporting_period now)

/-- Written from the spec's words (28/29/30/31-day months, calendar-aware),
for comparison with the calendar arithmetic of get_month_period: the
proleptic-Gregorian length of month m of year y. -/
def daysInMonth (y m : Int) : Int :=
  if m = 2 then (if (y % 4 = 0 ∧ y % 100 ≠ 0) ∨ y % 400 = 0 then 29 else 28)
  else if m = 4 ∨ m = 6 ∨ m = 9 ∨ m = 11 then 30
  else 31

deriving instance DecidableEq for Except

/-- Test fixture: a timezone with zero offset and no transitions (every
naive local timestamp maps to the single UTC instant with the same
second count); the local month is constantly January 1970. -/
def utcTz : Tz :=
  ⟨fun n => LocalResult.single n, fun t => t / 86400, fun _ => (1970, 1)⟩

section Lemmas

/-- naive_to_utc succeeds with v exactly when the timezone maps the naive
timestamp to the single instant v. -/
theorem naive_to_utc_ok_iff (f : Int → LocalResult) (n v : Int) :
    naive_to_utc f n = Except.ok v ↔ f n = LocalResult.single v := by
  cases h : f n <;> simp [naive_to_utc, h]

/-- Inverting the two-conversion bind chain shared by the three window
resolvers. -/
theorem bind_pair_ok_iff (x y : Except IoError Int) (p : Period) :
    (do
      let s ← x
      let e ← y
      Except.ok (⟨s, e⟩ : Period)) = Except.ok p ↔
    x = Except.ok p.start ∧ y = Except.ok p.stop := by
  obtain ⟨ps, pe⟩ := p
  cases x <;> cases y <;>
    simp [Bind.bind, Except.bind, Period.mk.injEq, and_assoc, eq_comm]

/-- get_today_period succeeds with p exactly when both local midnights
around the current local day convert singly to the bounds of p. -/
theorem get_today_period_ok_iff (tz : Tz) (now : Int) (p : Period) :
    get_today_period tz now = Except.ok p ↔
    tz.fromLocal (secondsPerDay * tz.localDay now) = LocalResult.single p.start ∧
    tz.fromLocal (secondsPerDay * tz.localDay now + secondsPerDay)
      = LocalResult.single p.stop := by
  rw [get_today_period, bind_pair_ok_iff, naive_to_utc_ok_iff, naive_to_utc_ok_iff]

/-- get_week_period succeeds with p exactly when local midnight of the
week's Monday and local midnight seven days later convert singly to the
bounds of p. -/
theorem get_week_period_ok_iff (tz : Tz) (now : Int) (p : Period) :
    get_week_period tz now = Except.ok p ↔
    tz.fromLocal (secondsPerDay *
        (tz.localDay now - num_days_from_monday (tz.localDay now)))
      = LocalResult.single p.start ∧
    tz.fromLocal (secondsPerDay *
        (tz.localDay now - num_days_from_monday (tz.localDay now))
        + 7 * secondsPerDay)
      = LocalResult.single p.stop := by
  rw [get_week_period, bind_pair_ok_iff, naive_to_utc_ok_iff, naive_to_utc_ok_iff]

/-- get_month_period succeeds with p exactly when local midnight of the 1st
of the current month and of the 1st of the next month convert singly to the
bounds of p. -/
theorem get_month_period_ok_iff (tz : Tz) (now : Int) (p : Period) :
    get_month_period tz now = Except.ok p ↔
    tz.fromLocal (secondsPerDay *
        daysFromCivil (tz.localYM now).1 (tz.localYM now).2 1)
      = LocalResult.single p.start ∧
    tz.fromLocal (secondsPerDay *
        daysFromCivil
          (if (tz.localYM now).2 = 12 then (tz.localYM now).1 + 1
            else (tz.localYM now).1)
          (if (tz.localYM now).2 = 12 then 1 else (tz.localYM now).2 + 1) 1)
      = LocalResult.single p.stop := by
  rw [get_month_period]
  by_cases h12 : (tz.localYM now).2 = 12 <;>
    simp only [h12, if_true, if_false, reduceIte] <;>
    rw [bind_pair_ok_iff, naive_to_utc_ok_iff, naive_to_utc_ok_iff]

/-- Walking from the 1st of a month to the 1st of the next month (rolling
December into January of the next year) advances the civil day count by
exactly the calendar length of the month: 31, 30, or, for February, 28 or
29 according to the proleptic-Gregorian leap rule. -/
theorem daysFromCivil_next_month (y m : Int) (h1 : 1 ≤ m) (h2 : m ≤ 12) :
    daysFromCivil (if m = 12 then y + 1 else y) (if m = 12 then 1 else m + 1) 1
      - daysFromCivil y m 1 = daysInMonth y m := by
  interval_cases m <;> (simp only [daysFromCivil, daysInMonth]; norm_num; try omega)

/-- Every calendar month length is positive. -/
theorem daysInMonth_pos (y m : Int) : 0 < daysInMonth y m := by
  simp only [daysInMonth]
  split
  · split <;> norm_num
  · split <;> norm_num

end Lemmas

/-- Claim C2: for every pair of periods, including ill-ordered ones, the
overlap equals min of the ends minus max of the starts when that max is
strictly below that min, and zero otherwise; the result is never
negative. -/
theorem overlap_clip_formula_nonneg (a b : Period) :
    a.overlap b = (if max a.start b.start < min a.stop b.stop
        then min a.stop b.stop - max a.start b.start else 0)
      ∧ 0 ≤ a.overlap b := by
  refine ⟨rfl, ?_⟩
  simp only [Period.overlap]
  split <;> omega

/-- Witness for C2 at a concrete pair of periods. -/
theorem overlap_clip_formula_nonneg_witness :
    Period.overlap ⟨0, 10⟩ ⟨5, 20⟩
        = (if max (0 : Int) 5 < min (10 : Int) 20
            then min (10 : Int) 20 - max (0 : Int) 5 else 0)
      ∧ 0 ≤ Period.overlap ⟨0, 10⟩ ⟨5, 20⟩ :=
  overlap_clip_formula_nonneg ⟨0, 10⟩ ⟨5, 20⟩

/-- Claim C3: start_tracking reports Already tracking time exactly when a
session is active; the error branch returns the timesheet unchanged, and
the success branch records now as the start of the one active session. -/
theorem start_tracking_cases (periods : List Period) (now : Int) :
    (∀ s : Int, start_tracking ⟨periods, some s⟩ now
        = (Except.error "Already tracking time.", ⟨periods, some s⟩)) ∧
    start_tracking ⟨periods, none⟩ now = (Except.ok (), ⟨periods, some now⟩) ∧
    ∀ act : Option Int,
      ((start_tracking ⟨periods, act⟩ now).1 = Except.error "Already tracking time."
        ↔ act.isSome = true) := by
  refine ⟨fun s => rfl, rfl, fun act => ?_⟩
  cases act <;> simp [start_tracking]

/-- Witness for C3: starting twice reports the error and leaves the sheet
unmodified. -/
theorem start_tracking_cases_witness :
    start_tracking ⟨[], some 4⟩ 9
      = (Except.error "Already tracking time.", ⟨[], some 4⟩) :=
  (start_tracking_cases [] 9).1 4

/-- Claim C4: stop_tracking returns no duration exactly when no session is
active, leaving the timesheet unchanged; with an active session started at
s it appends the completed period from s to now, clears the active
session, and returns the duration now minus s. -/
theorem stop_tracking_cases (periods : List Period) (now : Int) :
    stop_tracking ⟨periods, none⟩ now = (none, ⟨periods, none⟩) ∧
    (∀ s : Int, stop_tracking ⟨periods, some s⟩ now
        = (some (now - s), ⟨periods ++ [⟨s, now⟩], none⟩)) ∧
    ∀ act : Option Int, ((stop_tracking ⟨periods, act⟩ now).1 = none ↔ act = none) := by
  refine ⟨rfl, fun s => rfl, fun act => ?_⟩
  cases act <;> simp [stop_tracking]

/-- Witness for C4: stopping a session started at 2 at instant 10 stores
the period from 2 to 10 and returns duration 8. -/
theorem stop_tracking_cases_witness :
    stop_tracking ⟨[], some 2⟩ 10 = (some 8, ⟨[⟨2, 10⟩], none⟩) := by
  have h := (stop_tracking_cases [] 10).2.1 2
  simpa using h

/-- Claim C9: for a fixed window, the tracked time of a timesheet with no
active session whose period list is a concatenation equals the sum of the
tracked times of the two halves. -/
theorem tracked_time_additive (w : Period) (now : Int) (l1 l2 : List Period) :
    calculate_tracked_time_in_period ⟨l1 ++ l2, none⟩ w now
      = calculate_tracked_time_in_period ⟨l1, none⟩ w now
        + calculate_tracked_time_in_period ⟨l2, none⟩ w now := by
  simp [calculate_tracked_time_in_period]

/-- Witness for C9 at concrete period lists. -/
theorem tracked_time_additive_witness :
    calculate_tracked_time_in_period ⟨[⟨0, 5⟩] ++ [⟨5, 9⟩], none⟩ ⟨0, 10⟩ 0
      = calculate_tracked_time_in_period ⟨[⟨0, 5⟩], none⟩ ⟨0, 10⟩ 0
        + calculate_tracked_time_in_period ⟨[⟨5, 9⟩], none⟩ ⟨0, 10⟩ 0 :=
  tracked_time_additive ⟨0, 10⟩ 0 [⟨0, 5⟩] [⟨5, 9⟩]

/-- Claim C10: start_tracking never touches the stored period list; the
error branch changes nothing, and the success branch changes only the
active-session field. -/
theorem start_tracking_frame (periods : List Period) (now : Int) :
    (∀ act : Option Int, (start_tracking ⟨periods, act⟩ now).2.periods = periods) ∧
    (∀ s : Int, (start_tracking ⟨periods, some s⟩ now).2 = ⟨periods, some s⟩) ∧
    (start_tracking ⟨periods, none⟩ now).2 = ⟨periods, some now⟩ := by
  refine ⟨fun act => ?_, fun s => rfl, rfl⟩
  cases act <;> rfl

/-- Witness for C10: the stored periods survive a start call untouched. -/
theorem start_tracking_frame_witness :
    (start_tracking ⟨[⟨1, 2⟩], some 3⟩ 8).2.periods = [⟨1, 2⟩] :=
  (start_tracking_frame [⟨1, 2⟩] 8).1 (some 3)

/-- Claim C5: the week window starts at local midnight of the Monday on or
before the current local day (a Monday, at most six days back, with a
Sunday exactly six days after it, never zero), and its end is exactly seven
days after its start at the local level, both bounds being the single UTC
conversions of those local midnights. -/
theorem get_week_period_monday_aligned (tz : Tz) (now : Int) (p : Period)
    (h : get_week_period tz now = Except.ok p) :
    num_days_from_monday
        (tz.localDay now - num_days_from_monday (tz.localDay now)) = 0 ∧
    tz.localDay now - num_days_from_monday (tz.localDay now) ≤ tz.localDay now ∧
    tz.localDay now
      < tz.localDay now - num_days_from_monday (tz.localDay now) + 7 ∧
    (num_days_from_monday (tz.localDay now) = 6 →
      tz.localDay now - num_days_from_monday (tz.localDay now)
        = tz.localDay now - 6) ∧
    tz.fromLocal (secondsPerDay *
        (tz.localDay now - num_days_from_monday (tz.localDay now)))
      = LocalResult.single p.start ∧
    tz.fromLocal (secondsPerDay *
        (tz.localDay now - num_days_from_monday (tz.localDay now))
        + 7 * secondsPerDay)
      = LocalResult.single p.stop := by
  rw [get_week_period_ok_iff] at h
  refine ⟨?_, ?_, ?_, ?_, h.1, h.2⟩ <;> simp only [num_days_from_monday] <;> omega

/-- Witness for C5 on a Sunday: local day 3 (1970-01-04) is a Sunday, and
the resolved week runs from Monday 1969-12-29 local midnight. -/
theorem get_week_period_monday_aligned_witness :
    num_days_from_monday
        (utcTz.localDay 259200 - num_days_from_monday (utcTz.localDay 259200)) = 0 ∧
    utcTz.localDay 259200 - num_days_from_monday (utcTz.localDay 259200)
      ≤ utcTz.localDay 259200 ∧
    utcTz.localDay 259200
      < utcTz.localDay 259200 - num_days_from_monday (utcTz.localDay 259200) + 7 ∧
    (num_days_from_monday (utcTz.localDay 259200) = 6 →
      utcTz.localDay 259200 - num_days_from_monday (utcTz.localDay 259200)
        = utcTz.localDay 259200 - 6) ∧
    utcTz.fromLocal (secondsPerDay *
        (utcTz.localDay 259200 - num_days_from_monday (utcTz.localDay 259200)))
      = LocalResult.single (-259200) ∧
    utcTz.fromLocal (secondsPerDay *
        (utcTz.localDay 259200 - num_days_from_monday (utcTz.localDay 259200))
        + 7 * secondsPerDay)
      = LocalResult.single 345600 :=
  get_week_period_monday_aligned utcTz 259200 ⟨-259200, 345600⟩ (by decide)

/-- Claim C6: the month window starts at local midnight of the 1st of the
current local month and ends at local midnight of the 1st of the following
month, December rolling over to January of the next year, and the two
local boundary days are exactly one calendar month length (28, 29, 30 or
31 days) apart. -/
theorem get_month_period_calendar (tz : Tz) (now : Int) (p : Period)
    (hm1 : 1 ≤ (tz.localYM now).2) (hm2 : (tz.localYM now).2 ≤ 12)
    (h : get_month_period tz now = Except.ok p) :
    tz.fromLocal (secondsPerDay *
        daysFromCivil (tz.localYM now).1 (tz.localYM now).2 1)
      = LocalResult.single p.start ∧
    tz.fromLocal (secondsPerDay *
        daysFromCivil
          (if (tz.localYM now).2 = 12 then (tz.localYM now).1 + 1
            else (tz.localYM now).1)
          (if (tz.localYM now).2 = 12 then 1 else (tz.localYM now).2 + 1) 1)
      = LocalResult.single p.stop ∧
    ((tz.localYM now).2 = 12 →
      (if (tz.localYM now).2 = 12 then (tz.localYM now).1 + 1
        else (tz.localYM now).1) = (tz.localYM now).1 + 1 ∧
      (if (tz.localYM now).2 = 12 then 1 else (tz.localYM now).2 + 1) = 1) ∧
    daysFromCivil
        (if (tz.localYM now).2 = 12 then (tz.localYM now).1 + 1
          else (tz.localYM now).1)
        (if (tz.localYM now).2 = 12 then 1 else (tz.localYM now).2 + 1) 1
      - daysFromCivil (tz.localYM now).1 (tz.localYM now).2 1
      = daysInMonth (tz.localYM now).1 (tz.localYM now).2 := by
  rw [get_month_period_ok_iff] at h
  exact ⟨h.1, h.2, fun h12 => by simp [h12],
    daysFromCivil_next_month (tz.localYM now).1 (tz.localYM now).2 hm1 hm2⟩

/-- Witness for C6 in January 1970: the window runs from day 0 to day 31
at local midnight, 31 days apart. -/
theorem get_month_period_calendar_witness :
    utcTz.fromLocal (secondsPerDay * daysFromCivil 1970 1 1)
      = LocalResult.single 0 ∧
    utcTz.fromLocal (secondsPerDay *
        daysFromCivil (if (1 : Int) = 12 then 1970 + 1 else 1970)
          (if (1 : Int) = 12 then 1 else 1 + 1) 1)
      = LocalResult.single 2678400 ∧
    ((1 : Int) = 12 →
      (if (1 : Int) = 12 then (1970 : Int) + 1 else 1970) = 1970 + 1 ∧
      (if (1 : Int) = 12 then (1 : Int) else 1 + 1) = 1) ∧
    daysFromCivil (if (1 : Int) = 12 then 1970 + 1 else 1970)
        (if (1 : Int) = 12 then 1 else 1 + 1) 1
      - daysFromCivil 1970 1 1 = daysInMonth 1970 1 :=
  get_month_period_calendar utcTz 0 ⟨0, 2678400⟩ (by decide) (by decide) (by decide)

/-- Claim C7 as amended: naive_to_utc succeeds exactly when the timezone
maps the naive timestamp to a single instant; the ambiguous case produces
an error whose message carries both candidate instants and the gap case an
error naming the input; but every such error is an io error of the same
kind (Other) as a generic storage decode error, not a distinct variant. -/
theorem naive_to_utc_cases (f : Int → LocalResult) (n : Int) :
    (∀ dt : Int, f n = LocalResult.single dt → naive_to_utc f n = Except.ok dt) ∧
    (∀ dt1 dt2 : Int, f n = LocalResult.ambiguous dt1 dt2 →
      naive_to_utc f n = Except.error ⟨ErrorKind.other,
        "Ambiguous local time during conversion: " ++ toString dt1 ++ " or "
          ++ toString dt2⟩) ∧
    (f n = LocalResult.noLocal →
      naive_to_utc f n = Except.error ⟨ErrorKind.other,
        "Invalid local time during conversion: " ++ toString n⟩) ∧
    ((∃ v, naive_to_utc f n = Except.ok v) ↔ ∃ dt, f n = LocalResult.single dt) ∧
    ∀ (e : IoError) (msg : String),
      naive_to_utc f n = Except.error e → e.kind = (decode_error_to_io msg).kind := by
  refine ⟨fun dt h => by simp [naive_to_utc, h],
    fun dt1 dt2 h => by simp [naive_to_utc, h],
    fun h => by simp [naive_to_utc, h], ?_, ?_⟩
  · cases h : f n <;> simp [naive_to_utc, h]
  · intro e msg h
    cases hf : f n <;> simp [naive_to_utc, hf] at h <;>
      simp [← h, decode_error_to_io]

/-- Witness for C7's amended theorem at a concretely ambiguous timestamp. -/
theorem naive_to_utc_cases_witness :
    (IoError.mk ErrorKind.other
        ("Ambiguous local time during conversion: " ++ toString (3600 : Int)
          ++ " or " ++ toString (7200 : Int))).kind
      = (decode_error_to_io "EOF while parsing a value").kind :=
  (naive_to_utc_cases (fun _ => LocalResult.ambiguous 3600 7200) 0).2.2.2.2
    ⟨ErrorKind.other,
      "Ambiguous local time during conversion: " ++ toString (3600 : Int)
        ++ " or " ++ toString (7200 : Int)⟩
    "EOF while parsing a value" (by rfl)

/-- Counterexample for C7 as stated: at an ambiguous local timestamp the
conversion failure is an io error of exactly the kind (Other) that a
generic storage decode failure carries, with the candidates only inside a
message string — callers cannot distinguish it from a generic I/O error by
variant. -/
theorem naive_to_utc_generic_kind_counterexample :
    ∃ msg : String,
      naive_to_utc (fun _ => LocalResult.ambiguous 3600 7200) 0
        = Except.error
            ⟨(decode_error_to_io "EOF while parsing a value").kind, msg⟩ :=
  ⟨"Ambiguous local time during conversion: " ++ toString (3600 : Int)
      ++ " or " ++ toString (7200 : Int), rfl⟩

/-- Claim C8: both interval producers establish ordered intervals — the
period stop_tracking appends is ordered whenever the session start does
not lie after the stop instant, and every window any of the three
resolvers returns is ordered whenever the timezone conversion is monotone
on its single results and reports a valid month. -/
theorem producers_establish_start_le_stop :
    (∀ (periods : List Period) (s now : Int), s ≤ now →
      ∃ q : Period,
        (stop_tracking ⟨periods, some s⟩ now).2.periods = periods ++ [q]
          ∧ q.start ≤ q.stop) ∧
    ∀ (tz : Tz) (now : Int) (rp : ReportingPeriod) (p : Period),
      (∀ a b x y : Int, a ≤ b → tz.fromLocal a = LocalResult.single x →
        tz.fromLocal b = LocalResult.single y → x ≤ y) →
      1 ≤ (tz.localYM now).2 → (tz.localYM now).2 ≤ 12 →
      resolve_window tz now rp = Except.ok p → p.start ≤ p.stop := by
  constructor
  · intro periods s now hs
    exact ⟨⟨s, now⟩, rfl, hs⟩
  · intro tz now rp p hmono hm1 hm2 h
    cases rp
    · rw [resolve_window, get_today_period_ok_iff] at h
      exact hmono _ _ _ _ (by simp only [secondsPerDay]; omega) h.1 h.2
    · rw [resolve_window, get_week_period_ok_iff] at h
      exact hmono _ _ _ _ (by simp only [secondsPerDay]; omega) h.1 h.2
    · rw [resolve_window, get_month_period_ok_iff] at h
      have hlen := daysFromCivil_next_month (tz.localYM now).1 (tz.localYM now).2 hm1 hm2
      have hpos := daysInMonth_pos (tz.localYM now).1 (tz.localYM now).2
      exact hmono _ _ _ _ (by simp only [secondsPerDay]; omega) h.1 h.2

/-- Witness for C8: a concrete stop call appends an ordered period, and
the today window under the transition-free zero-offset timezone is
ordered. -/
theorem producers_establish_start_le_stop_witness :
    (∃ q : Period,
        (stop_tracking ⟨[], some 2⟩ 5).2.periods = [] ++ [q] ∧ q.start ≤ q.stop)
    ∧ (⟨0, 86400⟩ : Period).start ≤ (⟨0, 86400⟩ : Period).stop :=
  ⟨producers_establish_start_le_stop.1 [] 2 5 (by decide),
   producers_establish_start_le_stop.2 utcTz 0 ReportingPeriod.today ⟨0, 86400⟩
     (fun a b x y hab hx hy => by
       simp only [utcTz, LocalResult.single.injEq] at hx hy
       subst hx; subst hy; exact hab)
     (by decide) (by decide) (by decide)⟩

/-- Counterexample for C1 as stated: with an active session started at 0,
a window-resolution clock reading of 3600 and a later in-report clock
reading of 7200, the program reports 7200 seconds for today, while the
single-snapshot total mandated by the claim (clipping at the
window-resolution snapshot 3600) is 3600. -/
theorem report_resamples_now_counterexample :
    report_summary_total utcTz (fun i => if i = 0 then 3600 else 7200)
        ⟨[], some 0⟩ ReportingPeriod.today = Except.ok 7200
    ∧ single_snapshot_total utcTz 3600 ⟨[], some 0⟩ ReportingPeriod.today
        = Except.ok 3600
    ∧ (Except.ok 7200 : Except IoError Int) ≠ Except.ok 3600 :=
  ⟨by decide, by decide, by decide⟩

/-- Claim C1 as amended: when window resolution (which samples the clock
once) succeeds, the reported total is the sum of the overlaps of all
completed periods with the window plus, when a session is active, the
overlap of the interval from the active start to a second, freshly sampled
clock reading — the clipping instant is a single snapshot taken inside
calculate_tracked_time_in_period, but it is re-sampled relative to the
window-resolution snapshot. -/
theorem report_total_formula (tz : Tz) (clock : Nat → Int) (ts : TimeSheet)
    (rp : ReportingPeriod) (w : Period)
    (h : resolve_window tz (clock 0) rp = Except.ok w) :
    report_summary_total tz clock ts rp
      = Except.ok ((ts.periods.map (fun q => q.overlap w)).sum
          + (match ts.active_period_start with
             | some s => Period.overlap ⟨s, clock 1⟩ w
             | none => 0)) := by
  simp only [report_summary_total, h, calculate_tracked_time_in_period]
  rfl

/-- Witness for C1's amended theorem: one completed period of overlap 10
plus an active session clipped at the second clock reading 7200. -/
theorem report_total_formula_witness :
    report_summary_total utcTz (fun i => if i = 0 then 3600 else 7200)
        ⟨[⟨10, 20⟩], some 0⟩ ReportingPeriod.today
      = Except.ok (([⟨10, 20⟩].map (fun q => Period.overlap q ⟨0, 86400⟩)).sum
          + Period.overlap ⟨0, 7200⟩ ⟨0, 86400⟩) :=
  report_total_formula utcTz (fun i => if i = 0 then 3600 else 7200)
    ⟨[⟨10, 20⟩], some 0⟩ ReportingPeriod.today ⟨0, 86400⟩ (by decide)

end TimeTracker
